import Mathlib

/-!
Shallow embedding of the hifi audio-mixer core: the saturating sample
addition and spatialization pipeline of `audio-mixer/src/main.cpp`, and the
ring buffer / interframe gap tracker of `AudioRingBuffer.cpp`.

Machine integers are modelled as `Int`/`Nat` with explicit two's-complement
wrapping where the C++ narrows; buffers are `List Int` of int16 sample
values; pointers into the ring are offsets from the buffer origin.
-/

namespace Hifi

/-- Two's-complement narrowing of a wider integer into `int16_t`, as the C++
assignment `mixSample = normalizedSample` performs. -/
def toInt16 (z : Int) : Int :=
  (z + 32768) % 65536 - 32768

/-- `MAX_SAMPLE_VALUE` from `main.cpp`: `std::numeric_limits of int16_t, max`. -/
def MAX_SAMPLE_VALUE : Int := 32767

/-- `MIN_SAMPLE_VALUE` from `main.cpp`. -/
def MIN_SAMPLE_VALUE : Int := -32768

/-- `plateauAdditionOfSamples` from `main.cpp` lines 65-72.  The source
computes `std::min(MAX_SAMPLE_VALUE, sumSample)` into `normalizedSample` and
then immediately overwrites `normalizedSample` with
`std::max(MIN_SAMPLE_VALUE, sumSample)` (note: of `sumSample`, not of the
min-clamped value), so the first clamp has no effect on the result. -/
def plateauAdditionOfSamples (mixSample sampleToAdd : Int) : Int :=
  let sumSample : Int := sampleToAdd + mixSample
  let _normalizedSample : Int := min MAX_SAMPLE_VALUE sumSample
  let normalizedSample : Int := max MIN_SAMPLE_VALUE sumSample
  toInt16 normalizedSample

/-- Two-sided saturation as the specification defines it:
`clamp(mix + add, INT16_MIN, INT16_MAX)`. -/
def saturatingAddSpec (mixSample sampleToAdd : Int) : Int :=
  max MIN_SAMPLE_VALUE (min MAX_SAMPLE_VALUE (mixSample + sampleToAdd))

/-- `BUFFER_LENGTH_SAMPLES_PER_CHANNEL` from `main.cpp`:
`(1024 / 2) / sizeof(int16_t) = 256`. -/
def BUFFER_LENGTH_SAMPLES_PER_CHANNEL : Nat := 256

/-- `JITTER_BUFFER_SAMPLES` from `main.cpp`:
`(short) (12 * (22050.0 / 1000.0)) = (short) 264.6 = 264`. -/
def JITTER_BUFFER_SAMPLES : Nat := 264

/-- `RING_BUFFER_FRAMES` from `main.cpp` (and, per the spec, the default
`ring_frames` used as `RING_BUFFER_LENGTH_FRAMES` by the ring buffer). -/
def RING_BUFFER_FRAMES : Nat := 10

/-- `RING_BUFFER_SAMPLES = RING_BUFFER_FRAMES * BUFFER_LENGTH_SAMPLES_PER_CHANNEL`. -/
def RING_BUFFER_SAMPLES : Nat := RING_BUFFER_FRAMES * BUFFER_LENGTH_SAMPLES_PER_CHANNEL

/-- Overwrite `l` starting at position `pos` with the values `vals`
(the model of a `memcpy`/`memset` into a region of the ring). -/
def listWrite (l : List Int) (pos : Nat) (vals : List Int) : List Int :=
  l.take pos ++ vals ++ l.drop (pos + vals.length)

/-- State of `AudioRingBuffer` (`AudioRingBuffer.cpp`).  The C++ read/write
cursors `_nextOutput` and `_endOfLastWrite` are raw pointers into `_buffer`;
here they are offsets from the buffer origin. -/
structure AudioRingBuffer where
  sampleCapacity : Nat
  buffer : List Int
  nextOutput : Nat
  endOfLastWrite : Nat
  hasStarted : Bool
  isStarved : Bool
  randomAccessMode : Bool
  deriving DecidableEq, Repr

namespace AudioRingBuffer

/-- Well-formedness: the cursors point into the ring and the backing store
has exactly the capacity allocated by the constructor. -/
def wf (rb : AudioRingBuffer) : Prop :=
  rb.buffer.length = rb.sampleCapacity ∧
  rb.nextOutput < rb.sampleCapacity ∧
  rb.endOfLastWrite < rb.sampleCapacity

instance (rb : AudioRingBuffer) : Decidable rb.wf := by
  unfold wf; infer_instance

/-- The constructor `AudioRingBuffer(numFrameSamples, randomAccessMode)`:
capacity is `numFrameSamples * RING_BUFFER_LENGTH_FRAMES`; in random-access
mode the store is zeroed (`memset`), otherwise `new int16_t[]` leaves it
indeterminate, modelled by the arbitrary list `uninit`; both cursors start
at the buffer origin; `_isStarved = true`, `_hasStarted = false`. -/
def create (numFrameSamples : Nat) (randomAccessMode : Bool) (uninit : List Int) :
    AudioRingBuffer :=
  let cap := numFrameSamples * RING_BUFFER_FRAMES
  { sampleCapacity := cap
    buffer := if randomAccessMode then List.replicate cap 0 else uninit
    nextOutput := 0
    endOfLastWrite := 0
    hasStarted := false
    isStarved := true
    randomAccessMode := randomAccessMode }

/-- `shiftedPositionAccomodatingWrap`: move a cursor by `numSamplesShift`
(possibly negative), wrapping once past either end of the ring. -/
def shiftedPositionAccomodatingWrap (rb : AudioRingBuffer)
    (position numSamplesShift : Int) : Int :=
  if numSamplesShift > 0 ∧ position + numSamplesShift ≥ (rb.sampleCapacity : Int) then
    position + numSamplesShift - rb.sampleCapacity
  else if numSamplesShift < 0 ∧ position + numSamplesShift < 0 then
    position + numSamplesShift + rb.sampleCapacity
  else
    position + numSamplesShift

/-- `samplesAvailable`: signed cursor difference, corrected by one capacity
when negative.  (The `_endOfLastWrite == NULL` guard of the source concerns
only the zero-capacity constructor, which is never built here.) -/
def samplesAvailable (rb : AudioRingBuffer) : Nat :=
  let sampleDifference : Int := (rb.endOfLastWrite : Int) - (rb.nextOutput : Int)
  (if sampleDifference < 0 then sampleDifference + rb.sampleCapacity
   else sampleDifference).toNat

/-- First step of `writeData`: the overflow check.  If the buffer has
started and the advance of `_endOfLastWrite` by `samplesToCopy` would land
at or beyond `_nextOutput` while `_endOfLastWrite` is strictly before it
(raw pointer order), move both cursors to the origin and mark starved. -/
def writeResetIfCrossed (rb : AudioRingBuffer) (samplesToCopy : Nat) : AudioRingBuffer :=
  if rb.hasStarted = true ∧ rb.endOfLastWrite < rb.nextOutput ∧
      (rb.nextOutput : Int) ≤
        rb.shiftedPositionAccomodatingWrap rb.endOfLastWrite samplesToCopy then
    { rb with endOfLastWrite := 0, nextOutput := 0, isStarved := true }
  else rb

/-- Second step of `writeData`: the `memcpy` of `samplesToCopy` samples at
`_endOfLastWrite`, wrapping once at the end of the ring. -/
def writeCopy (rb : AudioRingBuffer) (data : List Int) (samplesToCopy : Nat) :
    AudioRingBuffer :=
  if rb.endOfLastWrite + samplesToCopy ≤ rb.sampleCapacity then
    { rb with buffer := listWrite rb.buffer rb.endOfLastWrite (data.take samplesToCopy) }
  else
    let numSamplesToEnd : Nat := rb.sampleCapacity - rb.endOfLastWrite
    let headPart : List Int := (data.drop numSamplesToEnd).take (samplesToCopy - numSamplesToEnd)
    let tailWritten : List Int := listWrite rb.buffer rb.endOfLastWrite (data.take numSamplesToEnd)
    { rb with buffer := listWrite tailWritten 0 headPart }

/-- Last step of `writeData`: advance the write cursor, wrapping. -/
def writeAdvance (rb : AudioRingBuffer) (samplesToCopy : Nat) : AudioRingBuffer :=
  { rb with endOfLastWrite :=
      (rb.shiftedPositionAccomodatingWrap rb.endOfLastWrite samplesToCopy).toNat }

/-- `writeData` (lines 182-212): clamp the request to the capacity; check
for overflow; copy wrapping once; advance the write cursor.  Returns the
number of samples written (the C++ returns that count scaled to bytes) and
the new state. -/
def writeData (rb : AudioRingBuffer) (data : List Int) : Nat × AudioRingBuffer :=
  let samplesToCopy : Nat := min data.length rb.sampleCapacity
  (samplesToCopy,
    writeAdvance (writeCopy (writeResetIfCrossed rb samplesToCopy) data samplesToCopy)
      samplesToCopy)

/-- The sample count `readData` settles on: `min(maxSamples, available)` in
normal mode, exactly `maxSamples` in random-access mode (the write-cursor
pointer is never NULL after construction). -/
def readAmount (rb : AudioRingBuffer) (maxSamples : Nat) : Nat :=
  if rb.randomAccessMode then maxSamples else min maxSamples rb.samplesAvailable

/-- The samples `readData` copies out: from `_nextOutput`, wrapping once at
the end of the ring when `_nextOutput + numReadSamples` passes it. -/
def readOut (rb : AudioRingBuffer) (numReadSamples : Nat) : List Int :=
  if rb.nextOutput + numReadSamples > rb.sampleCapacity then
    let numSamplesToEnd : Nat := rb.sampleCapacity - rb.nextOutput
    (rb.buffer.drop rb.nextOutput).take numSamplesToEnd ++
      rb.buffer.take (numReadSamples - numSamplesToEnd)
  else
    (rb.buffer.drop rb.nextOutput).take numReadSamples

/-- The store after `readData`: in random-access mode the positions just
copied are zeroed (`memset`), following the same wrap branches as the copy;
in normal mode the store is untouched. -/
def readZeroed (rb : AudioRingBuffer) (numReadSamples : Nat) : List Int :=
  if rb.nextOutput + numReadSamples > rb.sampleCapacity then
    let numSamplesToEnd : Nat := rb.sampleCapacity - rb.nextOutput
    let buf1 : List Int :=
      if rb.randomAccessMode then
        listWrite rb.buffer rb.nextOutput (List.replicate numSamplesToEnd 0)
      else rb.buffer
    if rb.randomAccessMode then
      listWrite buf1 0 (List.replicate (numReadSamples - numSamplesToEnd) 0)
    else buf1
  else
    if rb.randomAccessMode then
      listWrite rb.buffer rb.nextOutput (List.replicate numReadSamples 0)
    else rb.buffer

/-- `readData` (lines 137-176), in samples rather than bytes: settle the
sample count, copy it out (wrapping once), zero the visited positions in
random-access mode, and advance `_nextOutput`. -/
def readData (rb : AudioRingBuffer) (maxSamples : Nat) : List Int × AudioRingBuffer :=
  let numReadSamples : Nat := readAmount rb maxSamples
  let newNext : Nat := (rb.shiftedPositionAccomodatingWrap rb.nextOutput numReadSamples).toNat
  (readOut rb numReadSamples,
    { rb with buffer := readZeroed rb numReadSamples, nextOutput := newNext })

/-- The buffer positions the `memcpy`/`memset` of `readData` touch, derived
from the same branch structure: either the tail run from `_nextOutput` plus
an initial run after the wrap, or one contiguous run. -/
def readAccessedPositions (rb : AudioRingBuffer) (maxSamples : Nat) : List Nat :=
  let numReadSamples : Nat := readAmount rb maxSamples
  if rb.nextOutput + numReadSamples > rb.sampleCapacity then
    let numSamplesToEnd : Nat := rb.sampleCapacity - rb.nextOutput
    List.range' rb.nextOutput numSamplesToEnd ++
      List.range (numReadSamples - numSamplesToEnd)
  else
    List.range' rb.nextOutput numReadSamples

end AudioRingBuffer

/-- The per-source eligibility gate of `main.cpp` lines 114-128, evaluated
for a buffer that has been written: given the source's `started` flag and
`diffLastWriteNextOutput()` (the available samples), produce the updated
`started` flag and the `shouldBeAddedToMix` decision. -/
def eligibilityGate (started : Bool) (avail : Nat) : Bool × Bool :=
  if started = false ∧
      avail ≤ BUFFER_LENGTH_SAMPLES_PER_CHANNEL + JITTER_BUFFER_SAMPLES then
    (started, false)
  else if avail < BUFFER_LENGTH_SAMPLES_PER_CHANNEL then
    (false, false)
  else
    (true, true)

/-- The eligibility table as the specification states it (section 4.5), for a
buffer that has been written: hold back when not started and
`avail ≤ F + J` (started unchanged); starved when `avail < F`
(`started := false`); eligible otherwise (`started := true`). -/
def eligibilityGateSpec (started : Bool) (avail : Nat) : Bool × Bool :=
  if ¬(started = true) ∧
      avail ≤ BUFFER_LENGTH_SAMPLES_PER_CHANNEL + JITTER_BUFFER_SAMPLES then
    (started, false)
  else if avail < BUFFER_LENGTH_SAMPLES_PER_CHANNEL then
    (false, false)
  else
    (true, true)

/-- Modelled from the spec: `TIME_GAP_NUM_SAMPLES_IN_INTERVAL`, declared in
the missing header `AudioRingBuffer.h`; the spec gives
`gap_interval_samples (S)` default 50. -/
def TIME_GAP_NUM_SAMPLES_IN_INTERVAL : Nat := 50

/-- Modelled from the spec: `TIME_GAP_NUM_INTERVALS_IN_WINDOW`, declared in
the missing header `AudioRingBuffer.h`; the spec gives
`gap_window_intervals (W)` default 32. -/
def TIME_GAP_NUM_INTERVALS_IN_WINDOW : Nat := 32

/-- State of `InterframeTimeGapHistory` (`AudioRingBuffer.cpp` lines 23-82).
Timestamps are the microsecond values of `usecTimestampNow()` as `Nat`;
the u64 subtraction `now - _lastFrameReceivedTime` coincides with `Nat`
subtraction whenever the clock is monotone over the calls. -/
structure InterframeTimeGapHistory where
  lastFrameReceivedTime : Nat
  numSamplesInCurrentInterval : Nat
  currentIntervalMaxGap : Nat
  intervalMaxGaps : List Nat
  newestIntervalMaxGapAt : Nat
  windowMaxGap : Nat
  newWindowMaxGapAvailable : Bool
  deriving DecidableEq, Repr

namespace InterframeTimeGapHistory

/-- The constructor: everything zero, `W` zero entries, no new result. -/
def init : InterframeTimeGapHistory :=
  { lastFrameReceivedTime := 0
    numSamplesInCurrentInterval := 0
    currentIntervalMaxGap := 0
    intervalMaxGaps := List.replicate TIME_GAP_NUM_INTERVALS_IN_WINDOW 0
    newestIntervalMaxGapAt := 0
    windowMaxGap := 0
    newWindowMaxGapAvailable := false }

/-- `frameReceived()` at clock reading `now` (lines 34-77).  The window max
recomputation `for i < W: if gaps[i] > w then w := gaps[i]` starting from
`w = 0` is `foldl max 0`. -/
def frameReceived (h : InterframeTimeGapHistory) (now : Nat) : InterframeTimeGapHistory :=
  if h.lastFrameReceivedTime ≠ 0 then
    let gap : Nat := now - h.lastFrameReceivedTime
    let curMax : Nat :=
      if gap > h.currentIntervalMaxGap then gap else h.currentIntervalMaxGap
    let count : Nat := h.numSamplesInCurrentInterval + 1
    if count = TIME_GAP_NUM_SAMPLES_IN_INTERVAL then
      let newest : Nat :=
        if h.newestIntervalMaxGapAt = TIME_GAP_NUM_INTERVALS_IN_WINDOW - 1 then 0
        else h.newestIntervalMaxGapAt + 1
      let gaps : List Nat := h.intervalMaxGaps.set newest curMax
      { lastFrameReceivedTime := now
        numSamplesInCurrentInterval := 0
        currentIntervalMaxGap := 0
        intervalMaxGaps := gaps
        newestIntervalMaxGapAt := newest
        windowMaxGap := gaps.foldl max 0
        newWindowMaxGapAvailable := true }
    else
      { h with lastFrameReceivedTime := now
               numSamplesInCurrentInterval := count
               currentIntervalMaxGap := curMax }
  else
    { h with lastFrameReceivedTime := now }

/-- `getPastWindowMaxGap()` (lines 79-82): clear the new-result flag and
return the stored window max. -/
def getPastWindowMaxGap (h : InterframeTimeGapHistory) :
    Nat × InterframeTimeGapHistory :=
  (h.windowMaxGap, { h with newWindowMaxGapAvailable := false })

/-- The gap-tracker step as the specification words it (section 4.2 and the
claim): first call records only the timestamp; later calls compute
`gap = now - t_prev`, update the current-interval max, and exactly when `S`
gaps have accumulated store the interval max at `(newest + 1) mod W`, take
the window max over all stored entries, raise the flag and reset the
interval. -/
def frameReceivedSpec (h : InterframeTimeGapHistory) (now : Nat) : InterframeTimeGapHistory :=
  if h.lastFrameReceivedTime = 0 then
    { h with lastFrameReceivedTime := now }
  else
    let gap : Nat := now - h.lastFrameReceivedTime
    let curMax : Nat := max h.currentIntervalMaxGap gap
    let count : Nat := h.numSamplesInCurrentInterval + 1
    if count = TIME_GAP_NUM_SAMPLES_IN_INTERVAL then
      let newest : Nat := (h.newestIntervalMaxGapAt + 1) % TIME_GAP_NUM_INTERVALS_IN_WINDOW
      let gaps : List Nat := h.intervalMaxGaps.set newest curMax
      { lastFrameReceivedTime := now
        numSamplesInCurrentInterval := 0
        currentIntervalMaxGap := 0
        intervalMaxGaps := gaps
        newestIntervalMaxGapAt := newest
        windowMaxGap := gaps.foldl max 0
        newWindowMaxGapAvailable := true }
    else
      { h with lastFrameReceivedTime := now
               numSamplesInCurrentInterval := count
               currentIntervalMaxGap := curMax }

end InterframeTimeGapHistory

/-- The end-of-frame read-cursor advance of `main.cpp` lines 263-274 for a
mixed buffer: `setNextOutput(getNextOutput() + BUFFER_LENGTH_SAMPLES_PER_CHANNEL)`,
then wrap to the origin when the cursor reaches or passes
`getBuffer() + RING_BUFFER_SAMPLES`. -/
def mixerAdvanceNextOutput (next : Nat) : Nat :=
  let advanced : Nat := next + BUFFER_LENGTH_SAMPLES_PER_CHANNEL
  if advanced ≥ RING_BUFFER_SAMPLES then 0 else advanced

/-- The read-cursor positions (offsets of `_nextOutput` from `_buffer`) that
the mixer loop can produce: the cursor starts at the origin (construction,
and the overflow reset of `writeData`) and is only ever moved by
`mixerAdvanceNextOutput`. -/
inductive ReachableNextOutput : Nat → Prop
  | origin : ReachableNextOutput 0
  | advance {n : Nat} : ReachableNextOutput n → ReachableNextOutput (mixerAdvanceNextOutput n)

/-- `delaySamplePointer` of `main.cpp` lines 233-235, as an offset from the
buffer origin (possibly out of the ring, hence `Int`): when `_nextOutput` is
at the origin the look-back window is taken from the tail of the ring,
otherwise it is `numSamplesDelay` before `_nextOutput`. -/
def delaySamplePointer (next numSamplesDelay : Nat) : Int :=
  if next = 0 then (RING_BUFFER_SAMPLES : Int) - numSamplesDelay
  else (next : Int) - numSamplesDelay

/-- One operation of the ring-buffer trace for the interleaving invariant:
a `writeData` of the given samples or a `readData` of the given request. -/
inductive RingOp
  | write (data : List Int)
  | read (maxSamples : Nat)

/-- Run one operation; return (samples written, samples read, new state). -/
def execOp (rb : AudioRingBuffer) : RingOp → Nat × Nat × AudioRingBuffer
  | RingOp.write data =>
      let r := rb.writeData data
      (r.1, 0, r.2)
  | RingOp.read m =>
      let r := rb.readData m
      (0, (r.1).length, r.2)

/-- Run a trace of operations, accumulating the total samples actually
written and actually read. -/
def execTrace (rb : AudioRingBuffer) : List RingOp → Nat × Nat × AudioRingBuffer
  | [] => (0, 0, rb)
  | op :: ops =>
      let r := execOp rb op
      let rest := execTrace r.2.2 ops
      (r.1 + rest.1, r.2.1 + rest.2.1, rest.2.2)

/-- The total samples requested by the write operations of a trace. -/
def totalWriteRequested : List RingOp → Nat
  | [] => 0
  | RingOp.write data :: ops => data.length + totalWriteRequested ops
  | RingOp.read _ :: ops => totalWriteRequested ops

/-! ### Spatialization (real-valued float computations of `main.cpp`) -/

/-- C float-to-integer conversion: truncation toward zero. -/
noncomputable def cIntTrunc (x : ℝ) : Int :=
  if 0 ≤ x then ⌊x⌋ else -⌊-x⌋

/-- `MAX_OFF_AXIS_ATTENUATION = 0.2f`. -/
noncomputable def MAX_OFF_AXIS_ATTENUATION : ℝ := 0.2

/-- `OFF_AXIS_ATTENUATION_FORMULA_STEP = (1 - MAX_OFF_AXIS_ATTENUATION) / 2.0f`. -/
noncomputable def OFF_AXIS_ATTENUATION_FORMULA_STEP : ℝ :=
  (1 - MAX_OFF_AXIS_ATTENUATION) / 2

/-- `PHASE_AMPLITUDE_RATIO_AT_90 = 0.5`. -/
noncomputable def PHASE_AMPLITUDE_RATIO_AT_90 : ℝ := 0.5

/-- `PHASE_DELAY_AT_90 = 20` (an `int` in the source). -/
def PHASE_DELAY_AT_90 : Int := 20

/-- `DISTANCE_RATIO = 3.0f / 0.3f`, which single-precision arithmetic rounds
to exactly 10 (and the spec states as `R = 10`). -/
noncomputable def distanceRatioValue : ℝ := 10

/-- The distance-attenuation coefficient of `main.cpp` lines 168-170:
`min(1.0f, powf(0.5, (logf(DISTANCE_RATIO * d) / logf(3)) - 1))`.
(The per-frame memoization matrix caches exactly this value per pair.) -/
noncomputable def distanceCoefficient (d : ℝ) : ℝ :=
  min 1 ((1 / 2 : ℝ) ^ (Real.log (distanceRatioValue * d) / Real.log 3 - 1))

/-- `sinRatio = fabsf(sinf(bearingRelativeAngleToSource * (M_PI / 180)))`
(`main.cpp` lines 219-221), with the relative bearing in degrees. -/
noncomputable def sinRatioOf (bearingRelative : ℝ) : ℝ :=
  |Real.sin (bearingRelative * (Real.pi / 180))|

/-- `numSamplesDelay = PHASE_DELAY_AT_90 * sinRatio` (`main.cpp` line 222):
the float product is narrowed into an `int`, which truncates toward zero. -/
noncomputable def numSamplesDelay (bearingRelative : ℝ) : Int :=
  cIntTrunc ((PHASE_DELAY_AT_90 : ℝ) * sinRatioOf bearingRelative)

/-- The inter-aural delay as the specification states it:
`delay = round(20 * k)` samples, rounding to the nearest integer. -/
noncomputable def numSamplesDelaySpec (bearingRelative : ℝ) : Int :=
  round ((PHASE_DELAY_AT_90 : ℝ) * sinRatioOf bearingRelative)

/-- `weakChannelAmplitudeRatio = 1 - (PHASE_AMPLITUDE_RATIO_AT_90 * sinRatio)`
(`main.cpp` line 223). -/
noncomputable def weakChannelAmplitudeRatio (bearingRelative : ℝ) : ℝ :=
  1 - PHASE_AMPLITUDE_RATIO_AT_90 * sinRatioOf bearingRelative

/-- `atan2f(y, x)` restricted to the nonnegative arguments the mixer passes
(both are `fabsf` values): `arctan (y / x)`, with the `x = 0` axis cases. -/
noncomputable def atan2abs (y x : ℝ) : ℝ :=
  if x = 0 then (if y = 0 then 0 else Real.pi / 2) else Real.arctan (y / x)

/-- Per-agent data the mixer reads: linked ring-buffer pose fields, the
per-frame flags, and the ring contents (`_buffer`, as a list) with the
read-cursor offset `_nextOutput`. -/
structure AgentData where
  agentTypeAvatar : Bool
  posX : ℝ
  posY : ℝ
  posZ : ℝ
  bearing : ℝ
  attenuationRatio : ℝ
  shouldBeAddedToMix : Bool
  shouldLoopback : Bool
  ringSamples : List Int
  nextOutput : Nat

/-- The spatialization parameters computed in `main.cpp` lines 153-224 for a
source distinct from the listener: the wrapped relative bearing, the
composite attenuation coefficient, the inter-aural delay in samples, and the
weak-channel amplitude factor. -/
noncomputable def spatialParams (listener other : AgentData) :
    ℝ × ℝ × Int × ℝ :=
  let distanceToAgent : ℝ :=
    Real.sqrt ((listener.posX - other.posX) ^ 2 + (listener.posY - other.posY) ^ 2 +
      (listener.posZ - other.posZ) ^ 2)
  let distCoef : ℝ := distanceCoefficient distanceToAgent
  let triangleAngle : ℝ :=
    atan2abs |listener.posZ - other.posZ| |listener.posX - other.posX| * (180 / Real.pi)
  let absoluteAngleToSource : ℝ :=
    if other.posX > listener.posX then
      (if other.posZ > listener.posZ then -90 + triangleAngle else -90 - triangleAngle)
    else
      (if other.posZ > listener.posZ then 90 - triangleAngle else 90 + triangleAngle)
  let bearingRaw : ℝ := absoluteAngleToSource - listener.bearing
  let bearingRelativeAngleToSource : ℝ :=
    if bearingRaw > 180 then bearingRaw - 360
    else if bearingRaw < -180 then bearingRaw + 360
    else bearingRaw
  let deliveryRaw : ℝ := absoluteAngleToSource - other.bearing
  let angleOfDelivery : ℝ :=
    if deliveryRaw > 180 then deliveryRaw - 360
    else if deliveryRaw < -180 then deliveryRaw + 360
    else deliveryRaw
  let offAxisCoefficient : ℝ :=
    MAX_OFF_AXIS_ATTENUATION + OFF_AXIS_ATTENUATION_FORMULA_STEP * (|angleOfDelivery| / 90)
  let attenuationCoefficient : ℝ := distCoef * other.attenuationRatio * offAxisCoefficient
  (bearingRelativeAngleToSource, attenuationCoefficient,
    numSamplesDelay bearingRelativeAngleToSource,
    weakChannelAmplitudeRatio bearingRelativeAngleToSource)

/-- Mix one eligible source into the listener's stereo scratch
(`main.cpp` lines 148-252).  The scratch is `2F` samples, left channel at
offset `0` and right channel at offset `F`; identity parameters are used
when the source is the listener itself (loopback). -/
noncomputable def mixSourceIntoScratch (listener other : AgentData)
    (sameAgent : Bool) (scratch : List Int) : List Int :=
  let p : ℝ × ℝ × Int × ℝ :=
    if sameAgent then (0, 1, 0, 1) else spatialParams listener other
  let bearingRelativeAngleToSource : ℝ := p.1
  let attenuationCoefficient : ℝ := p.2.1
  let numDelay : Nat := p.2.2.1.toNat
  let weak : ℝ := p.2.2.2
  let goodOff : Nat :=
    if bearingRelativeAngleToSource > 0 then BUFFER_LENGTH_SAMPLES_PER_CHANNEL else 0
  let delayedOff : Nat :=
    if bearingRelativeAngleToSource > 0 then 0 else BUFFER_LENGTH_SAMPLES_PER_CHANNEL
  let delayBase : Int := delaySamplePointer other.nextOutput numDelay
  (List.range BUFFER_LENGTH_SAMPLES_PER_CHANNEL).foldl
    (fun sc s =>
      let sc1 : List Int :=
        if s < numDelay then
          let earlierSample : Int :=
            cIntTrunc ((other.ringSamples.getD (delayBase + s).toNat 0 : ℝ) * attenuationCoefficient)
          sc.set (delayedOff + s)
            (plateauAdditionOfSamples (sc.getD (delayedOff + s) 0)
              (cIntTrunc ((earlierSample : ℝ) * weak)))
        else sc
      let currentSample : Int :=
        cIntTrunc ((other.ringSamples.getD (other.nextOutput + s) 0 : ℝ) * attenuationCoefficient)
      let sc2 : List Int :=
        sc1.set (goodOff + s)
          (plateauAdditionOfSamples (sc1.getD (goodOff + s) 0) currentSample)
      if s + numDelay < BUFFER_LENGTH_SAMPLES_PER_CHANNEL then
        sc2.set (delayedOff + s + numDelay)
          (plateauAdditionOfSamples (sc2.getD (delayedOff + s + numDelay) 0)
            (cIntTrunc ((currentSample : ℝ) * weak)))
      else sc2)
    scratch

/-- The stereo frame the mixer emits for the avatar listener at position
`listenerIdx` of the agent list (`main.cpp` lines 135-259): starting from a
zeroed `2F` scratch, fold over every agent; an agent contributes when it is
a different agent (or the listener itself with loopback on) and its buffer
has `shouldBeAddedToMix` set. -/
noncomputable def mixFrameForListener (agents : List AgentData)
    (listenerIdx : Nat) (listener : AgentData) : List Int :=
  (agents.enum).foldl
    (fun scratch entry =>
      if entry.1 ≠ listenerIdx ∨ (entry.1 = listenerIdx ∧ listener.shouldLoopback = true) then
        if entry.2.shouldBeAddedToMix = true then
          mixSourceIntoScratch listener entry.2 (decide (entry.1 = listenerIdx)) scratch
        else scratch
      else scratch)
    (List.replicate (2 * BUFFER_LENGTH_SAMPLES_PER_CHANNEL) 0)

/-! ## Helper lemmas -/

theorem listWrite_length (l vals : List Int) (pos : Nat)
    (h : pos + vals.length ≤ l.length) : (listWrite l pos vals).length = l.length := by
  simp only [listWrite, List.length_append, List.length_take, List.length_drop]
  omega

namespace AudioRingBuffer

@[simp] theorem writeCopy_sampleCapacity (rb : AudioRingBuffer) (data : List Int) (stc : Nat) :
    (writeCopy rb data stc).sampleCapacity = rb.sampleCapacity := by
  unfold writeCopy; split_ifs <;> rfl

@[simp] theorem writeCopy_nextOutput (rb : AudioRingBuffer) (data : List Int) (stc : Nat) :
    (writeCopy rb data stc).nextOutput = rb.nextOutput := by
  unfold writeCopy; split_ifs <;> rfl

@[simp] theorem writeCopy_endOfLastWrite (rb : AudioRingBuffer) (data : List Int) (stc : Nat) :
    (writeCopy rb data stc).endOfLastWrite = rb.endOfLastWrite := by
  unfold writeCopy; split_ifs <;> rfl

@[simp] theorem writeCopy_isStarved (rb : AudioRingBuffer) (data : List Int) (stc : Nat) :
    (writeCopy rb data stc).isStarved = rb.isStarved := by
  unfold writeCopy; split_ifs <;> rfl

@[simp] theorem writeCopy_hasStarted (rb : AudioRingBuffer) (data : List Int) (stc : Nat) :
    (writeCopy rb data stc).hasStarted = rb.hasStarted := by
  unfold writeCopy; split_ifs <;> rfl

@[simp] theorem writeCopy_randomAccessMode (rb : AudioRingBuffer) (data : List Int) (stc : Nat) :
    (writeCopy rb data stc).randomAccessMode = rb.randomAccessMode := by
  unfold writeCopy; split_ifs <;> rfl

@[simp] theorem writeAdvance_sampleCapacity (rb : AudioRingBuffer) (stc : Nat) :
    (writeAdvance rb stc).sampleCapacity = rb.sampleCapacity := rfl

@[simp] theorem writeAdvance_nextOutput (rb : AudioRingBuffer) (stc : Nat) :
    (writeAdvance rb stc).nextOutput = rb.nextOutput := rfl

@[simp] theorem writeAdvance_isStarved (rb : AudioRingBuffer) (stc : Nat) :
    (writeAdvance rb stc).isStarved = rb.isStarved := rfl

@[simp] theorem writeAdvance_hasStarted (rb : AudioRingBuffer) (stc : Nat) :
    (writeAdvance rb stc).hasStarted = rb.hasStarted := rfl

@[simp] theorem writeAdvance_randomAccessMode (rb : AudioRingBuffer) (stc : Nat) :
    (writeAdvance rb stc).randomAccessMode = rb.randomAccessMode := rfl

@[simp] theorem writeAdvance_buffer (rb : AudioRingBuffer) (stc : Nat) :
    (writeAdvance rb stc).buffer = rb.buffer := rfl

theorem writeAdvance_endOfLastWrite (rb : AudioRingBuffer) (stc : Nat) :
    (writeAdvance rb stc).endOfLastWrite =
      (rb.shiftedPositionAccomodatingWrap rb.endOfLastWrite stc).toNat := rfl

@[simp] theorem writeResetIfCrossed_sampleCapacity (rb : AudioRingBuffer) (stc : Nat) :
    (rb.writeResetIfCrossed stc).sampleCapacity = rb.sampleCapacity := by
  unfold writeResetIfCrossed; split_ifs <;> rfl

@[simp] theorem writeResetIfCrossed_buffer (rb : AudioRingBuffer) (stc : Nat) :
    (rb.writeResetIfCrossed stc).buffer = rb.buffer := by
  unfold writeResetIfCrossed; split_ifs <;> rfl

@[simp] theorem writeResetIfCrossed_hasStarted (rb : AudioRingBuffer) (stc : Nat) :
    (rb.writeResetIfCrossed stc).hasStarted = rb.hasStarted := by
  unfold writeResetIfCrossed; split_ifs <;> rfl

@[simp] theorem writeResetIfCrossed_randomAccessMode (rb : AudioRingBuffer) (stc : Nat) :
    (rb.writeResetIfCrossed stc).randomAccessMode = rb.randomAccessMode := by
  unfold writeResetIfCrossed; split_ifs <;> rfl

theorem writeResetIfCrossed_pos (rb : AudioRingBuffer) (stc : Nat)
    (hc : rb.hasStarted = true ∧ rb.endOfLastWrite < rb.nextOutput ∧
      (rb.nextOutput : Int) ≤ rb.shiftedPositionAccomodatingWrap rb.endOfLastWrite stc) :
    rb.writeResetIfCrossed stc =
      { rb with endOfLastWrite := 0, nextOutput := 0, isStarved := true } := by
  unfold writeResetIfCrossed; rw [if_pos hc]

theorem writeResetIfCrossed_neg (rb : AudioRingBuffer) (stc : Nat)
    (hc : ¬(rb.hasStarted = true ∧ rb.endOfLastWrite < rb.nextOutput ∧
      (rb.nextOutput : Int) ≤ rb.shiftedPositionAccomodatingWrap rb.endOfLastWrite stc)) :
    rb.writeResetIfCrossed stc = rb := by
  unfold writeResetIfCrossed; rw [if_neg hc]

theorem writeData_snd (rb : AudioRingBuffer) (data : List Int) :
    (rb.writeData data).2 =
      writeAdvance
        (writeCopy (rb.writeResetIfCrossed (min data.length rb.sampleCapacity)) data
          (min data.length rb.sampleCapacity))
        (min data.length rb.sampleCapacity) := rfl

theorem writeData_fst (rb : AudioRingBuffer) (data : List Int) :
    (rb.writeData data).1 = min data.length rb.sampleCapacity := rfl

theorem samplesAvailable_def (rb : AudioRingBuffer) :
    rb.samplesAvailable =
      (if ((rb.endOfLastWrite : Int) - rb.nextOutput) < 0 then
        (rb.endOfLastWrite : Int) - rb.nextOutput + rb.sampleCapacity
      else (rb.endOfLastWrite : Int) - rb.nextOutput).toNat := rfl

theorem shiftedPositionAccomodatingWrap_def (rb : AudioRingBuffer)
    (position numSamplesShift : Int) :
    rb.shiftedPositionAccomodatingWrap position numSamplesShift =
      if numSamplesShift > 0 ∧ position + numSamplesShift ≥ (rb.sampleCapacity : Int) then
        position + numSamplesShift - rb.sampleCapacity
      else if numSamplesShift < 0 ∧ position + numSamplesShift < 0 then
        position + numSamplesShift + rb.sampleCapacity
      else
        position + numSamplesShift := rfl

theorem samplesAvailable_eq_sub (rb : AudioRingBuffer)
    (h : rb.nextOutput ≤ rb.endOfLastWrite) :
    rb.samplesAvailable = rb.endOfLastWrite - rb.nextOutput := by
  rw [samplesAvailable_def]; split_ifs <;> omega

theorem writeCopy_buffer_length (rb : AudioRingBuffer) (data : List Int) (stc : Nat)
    (hlen : rb.buffer.length = rb.sampleCapacity) (hdata : stc ≤ data.length)
    (hcap : stc ≤ rb.sampleCapacity) (hendb : rb.endOfLastWrite ≤ rb.sampleCapacity) :
    (writeCopy rb data stc).buffer.length = rb.sampleCapacity := by
  unfold writeCopy
  split_ifs with hbr <;>
    simp only [listWrite, List.length_append, List.length_take, List.length_drop] <;>
    omega

@[simp] theorem readData_snd_sampleCapacity (rb : AudioRingBuffer) (m : Nat) :
    (rb.readData m).2.sampleCapacity = rb.sampleCapacity := rfl

@[simp] theorem readData_snd_endOfLastWrite (rb : AudioRingBuffer) (m : Nat) :
    (rb.readData m).2.endOfLastWrite = rb.endOfLastWrite := rfl

@[simp] theorem readData_snd_isStarved (rb : AudioRingBuffer) (m : Nat) :
    (rb.readData m).2.isStarved = rb.isStarved := rfl

@[simp] theorem readData_snd_hasStarted (rb : AudioRingBuffer) (m : Nat) :
    (rb.readData m).2.hasStarted = rb.hasStarted := rfl

@[simp] theorem readData_snd_randomAccessMode (rb : AudioRingBuffer) (m : Nat) :
    (rb.readData m).2.randomAccessMode = rb.randomAccessMode := rfl

theorem readData_snd_nextOutput (rb : AudioRingBuffer) (m : Nat) :
    (rb.readData m).2.nextOutput =
      (rb.shiftedPositionAccomodatingWrap rb.nextOutput (readAmount rb m)).toNat := rfl

theorem readData_snd_buffer (rb : AudioRingBuffer) (m : Nat) :
    (rb.readData m).2.buffer = readZeroed rb (readAmount rb m) := rfl

theorem readData_fst (rb : AudioRingBuffer) (m : Nat) :
    (rb.readData m).1 = readOut rb (readAmount rb m) := rfl

theorem readZeroed_not_random (rb : AudioRingBuffer) (n : Nat)
    (h : rb.randomAccessMode = false) : readZeroed rb n = rb.buffer := by
  unfold readZeroed
  simp [h]

theorem readAmount_not_random (rb : AudioRingBuffer) (m : Nat)
    (h : rb.randomAccessMode = false) :
    readAmount rb m = min m rb.samplesAvailable := by
  unfold readAmount
  simp [h]

theorem readOut_length_no_wrap (rb : AudioRingBuffer) (n : Nat)
    (hlen : rb.buffer.length = rb.sampleCapacity)
    (h : rb.nextOutput + n ≤ rb.sampleCapacity) :
    (readOut rb n).length = n := by
  unfold readOut
  rw [if_neg (by omega)]
  simp only [List.length_take, List.length_drop]
  omega

end AudioRingBuffer

theorem execTrace_nil (rb : AudioRingBuffer) : execTrace rb [] = (0, 0, rb) := rfl

theorem execTrace_cons (rb : AudioRingBuffer) (op : RingOp) (t : List RingOp) :
    execTrace rb (op :: t) =
      ((execOp rb op).1 + (execTrace (execOp rb op).2.2 t).1,
        (execOp rb op).2.1 + (execTrace (execOp rb op).2.2 t).2.1,
        (execTrace (execOp rb op).2.2 t).2.2) := rfl

theorem execOp_write (rb : AudioRingBuffer) (data : List Int) :
    execOp rb (RingOp.write data) = ((rb.writeData data).1, 0, (rb.writeData data).2) := rfl

theorem execOp_read (rb : AudioRingBuffer) (m : Nat) :
    execOp rb (RingOp.read m) = (0, (rb.readData m).1.length, (rb.readData m).2) := rfl

theorem totalWriteRequested_append (l1 l2 : List RingOp) :
    totalWriteRequested (l1 ++ l2) = totalWriteRequested l1 + totalWriteRequested l2 := by
  induction l1 with
  | nil => simp [totalWriteRequested]
  | cons op t ih =>
      cases op <;> simp [totalWriteRequested, ih, Nat.add_assoc]

/-- Cursor accounting along a trace of writes and reads on a non-random,
never-started ring buffer, as long as the total requested write volume stays
strictly below the capacity: the write cursor advances by exactly the
samples written, the read cursor by exactly the samples read, reads never
outrun writes, and the flags, capacity and store size are preserved. -/
theorem execTrace_accounting :
    ∀ (ops : List RingOp) (rb : AudioRingBuffer),
      rb.hasStarted = false → rb.randomAccessMode = false →
      rb.buffer.length = rb.sampleCapacity →
      rb.nextOutput ≤ rb.endOfLastWrite →
      rb.endOfLastWrite + totalWriteRequested ops < rb.sampleCapacity →
      (execTrace rb ops).2.2.sampleCapacity = rb.sampleCapacity ∧
      (execTrace rb ops).2.2.hasStarted = false ∧
      (execTrace rb ops).2.2.randomAccessMode = false ∧
      (execTrace rb ops).2.2.buffer.length = rb.sampleCapacity ∧
      (execTrace rb ops).2.2.endOfLastWrite = rb.endOfLastWrite + (execTrace rb ops).1 ∧
      (execTrace rb ops).2.2.nextOutput = rb.nextOutput + (execTrace rb ops).2.1 ∧
      rb.nextOutput + (execTrace rb ops).2.1 ≤ rb.endOfLastWrite + (execTrace rb ops).1 ∧
      (execTrace rb ops).1 ≤ totalWriteRequested ops := by
  intro ops
  induction ops with
  | nil =>
      intro rb h1 h2 h3 h4 h5
      refine ⟨rfl, h1, h2, h3, by simp [execTrace_nil], by simp [execTrace_nil], ?_, ?_⟩
      · simpa [execTrace_nil] using h4
      · simp [execTrace_nil, totalWriteRequested]
  | cons op t ih =>
      intro rb h1 h2 h3 h4 h5
      cases op with
      | write data =>
          have htw : totalWriteRequested (RingOp.write data :: t) =
              data.length + totalWriteRequested t := rfl
          rw [htw] at h5
          have hdlt : data.length < rb.sampleCapacity := by omega
          have hstc : min data.length rb.sampleCapacity = data.length :=
            Nat.min_eq_left (Nat.le_of_lt hdlt)
          have hreset : rb.writeResetIfCrossed (min data.length rb.sampleCapacity) = rb :=
            rb.writeResetIfCrossed_neg _ (fun hc => by rw [h1] at hc; exact absurd hc.1 (by simp))
          have hw1 : (rb.writeData data).1 = data.length := by
            rw [AudioRingBuffer.writeData_fst, hstc]
          have hend' : (rb.writeData data).2.endOfLastWrite =
              rb.endOfLastWrite + data.length := by
            rw [AudioRingBuffer.writeData_snd, AudioRingBuffer.writeAdvance_endOfLastWrite,
              AudioRingBuffer.shiftedPositionAccomodatingWrap_def]
            simp only [AudioRingBuffer.writeCopy_sampleCapacity,
              AudioRingBuffer.writeCopy_endOfLastWrite, hreset]
            rw [hstc]
            split_ifs <;> omega
          have hnext' : (rb.writeData data).2.nextOutput = rb.nextOutput := by
            rw [AudioRingBuffer.writeData_snd]
            simp [hreset]
          have hcap' : (rb.writeData data).2.sampleCapacity = rb.sampleCapacity := by
            rw [AudioRingBuffer.writeData_snd]
            simp [hreset]
          have hstart' : (rb.writeData data).2.hasStarted = false := by
            rw [AudioRingBuffer.writeData_snd]
            simp [hreset, h1]
          have hra' : (rb.writeData data).2.randomAccessMode = false := by
            rw [AudioRingBuffer.writeData_snd]
            simp [hreset, h2]
          have hbuf' : (rb.writeData data).2.buffer.length = rb.sampleCapacity := by
            rw [AudioRingBuffer.writeData_snd]
            simp only [AudioRingBuffer.writeAdvance_buffer, hreset]
            exact AudioRingBuffer.writeCopy_buffer_length rb data _ h3
              (by rw [hstc]) (Nat.min_le_right _ _) (by omega)
          have hrec := ih (rb.writeData data).2 hstart' hra' (by rw [hcap']; exact hbuf')
            (by rw [hnext', hend']; omega) (by rw [hend', hcap']; omega)
          rw [execTrace_cons, execOp_write]
          simp only [hw1] at hrec ⊢
          rw [hcap'] at hrec
          constructor
          · exact hrec.1
          refine ⟨hrec.2.1, hrec.2.2.1, hrec.2.2.2.1, ?_, ?_, ?_, ?_⟩
          · rw [hrec.2.2.2.2.1, hend']
            omega
          · rw [hrec.2.2.2.2.2.1, hnext']
            omega
          · have := hrec.2.2.2.2.2.2.1
            rw [hnext', hend'] at this
            omega
          · have := hrec.2.2.2.2.2.2.2
            rw [htw]
            omega
      | read m =>
          have htw : totalWriteRequested (RingOp.read m :: t) = totalWriteRequested t := rfl
          rw [htw] at h5
          have havail : rb.samplesAvailable = rb.endOfLastWrite - rb.nextOutput :=
            rb.samplesAvailable_eq_sub h4
          have hn : AudioRingBuffer.readAmount rb m = min m (rb.endOfLastWrite - rb.nextOutput) := by
            rw [rb.readAmount_not_random m h2, havail]
          have hnle : AudioRingBuffer.readAmount rb m ≤ rb.endOfLastWrite - rb.nextOutput := by
            rw [hn]; exact Nat.min_le_right _ _
          have hout : (rb.readData m).1.length = AudioRingBuffer.readAmount rb m := by
            rw [AudioRingBuffer.readData_fst]
            exact rb.readOut_length_no_wrap _ h3 (by omega)
          have hnext' : (rb.readData m).2.nextOutput =
              rb.nextOutput + AudioRingBuffer.readAmount rb m := by
            rw [AudioRingBuffer.readData_snd_nextOutput,
              AudioRingBuffer.shiftedPositionAccomodatingWrap_def]
            split_ifs <;> omega
          have hbuf' : (rb.readData m).2.buffer.length = rb.sampleCapacity := by
            rw [AudioRingBuffer.readData_snd_buffer, rb.readZeroed_not_random _ h2]
            exact h3
          have hrec := ih (rb.readData m).2 (by simp [h1]) (by simp [h2])
            (by simpa using hbuf') (by rw [hnext']; simp; omega)
            (by simp only [AudioRingBuffer.readData_snd_endOfLastWrite,
                AudioRingBuffer.readData_snd_sampleCapacity]; omega)
          rw [execTrace_cons, execOp_read]
          simp only [AudioRingBuffer.readData_snd_sampleCapacity,
            AudioRingBuffer.readData_snd_endOfLastWrite] at hrec
          refine ⟨hrec.1, hrec.2.1, hrec.2.2.1, hrec.2.2.2.1, ?_, ?_, ?_, ?_⟩
          · simpa using hrec.2.2.2.2.1
          · rw [hout]
            have := hrec.2.2.2.2.2.1
            rw [hnext'] at this
            simp only at this ⊢
            omega
          · have := hrec.2.2.2.2.2.2.1
            rw [hnext'] at this
            rw [hout]
            simp only at this ⊢
            omega
          · rw [htw]
            simpa using hrec.2.2.2.2.2.2.2

/-! ## Theorems -/

/-! ## Theorems -/

/-- C1: the mixing addition is claimed to clamp two-sidedly to
`[INT16_MIN, INT16_MAX]`.  The code discards the `min` clamp (it re-clamps
the raw sum only from below) and then narrows to `int16_t`, so at
`mix = 32767, add = 1` it produces `-32768` where two-sided saturation
produces `32767`. -/
theorem plateau_addition_not_two_sided :
    plateauAdditionOfSamples 32767 1 = -32768 ∧
    saturatingAddSpec 32767 1 = 32767 := by
  decide

/-- C3: for a buffer that has been written, the eligibility gate agrees with
the spec table: hold back (flags unchanged, no mix) when not started and
`avail ≤ F + J`; starved (`started := false`, no mix) when `avail < F`;
otherwise eligible (`started := true`, mix). -/
theorem eligibility_gate_matches_table :
    ∀ (started : Bool) (avail : Nat),
      eligibilityGate started avail = eligibilityGateSpec started avail ∧
      (started = false →
        avail ≤ BUFFER_LENGTH_SAMPLES_PER_CHANNEL + JITTER_BUFFER_SAMPLES →
        eligibilityGate started avail = (started, false)) ∧
      ((started = true ∨ BUFFER_LENGTH_SAMPLES_PER_CHANNEL + JITTER_BUFFER_SAMPLES < avail) →
        avail < BUFFER_LENGTH_SAMPLES_PER_CHANNEL →
        eligibilityGate started avail = (false, false)) ∧
      ((started = true ∨ BUFFER_LENGTH_SAMPLES_PER_CHANNEL + JITTER_BUFFER_SAMPLES < avail) →
        BUFFER_LENGTH_SAMPLES_PER_CHANNEL ≤ avail →
        eligibilityGate started avail = (true, true)) := by
  intro started avail
  unfold eligibilityGate eligibilityGateSpec
  cases started <;> split_ifs <;> simp_all

/-- Witness for C3 at a concrete input: a never-started source with 300
available samples is held back. -/
theorem eligibility_gate_matches_table_witness :
    eligibilityGate false 300 = (false, false) :=
  (eligibility_gate_matches_table false 300).2.1 rfl (by decide)

/-- A started ring buffer (capacity 10) whose cursors are equal at the
origin, as in scenario Sc.2 scaled down: the claim predicts that a write
clamped to the full capacity triggers the overflow reset here. -/
def equalCursorsStartedBuffer : AudioRingBuffer :=
  { sampleCapacity := 10
    buffer := List.replicate 10 0
    nextOutput := 0
    endOfLastWrite := 0
    hasStarted := true
    isStarved := false
    randomAccessMode := false }

/-- C2 counterexample: with `started = true` and equal cursors, a write of 12
samples is clamped to the full capacity 10 and its advance wraps the write
cursor exactly onto the read cursor, yet the reset does NOT trigger (the
source demands the write cursor be strictly before the read cursor), so
`starved` stays `false` — the claim requires `starved = true` after such a
write. -/
theorem overflow_equal_cursors_not_reset :
    (equalCursorsStartedBuffer.writeData (List.replicate 12 3)).1 = 10 ∧
    equalCursorsStartedBuffer.hasStarted = true ∧
    equalCursorsStartedBuffer.endOfLastWrite = equalCursorsStartedBuffer.nextOutput ∧
    (equalCursorsStartedBuffer.writeData (List.replicate 12 3)).2.isStarved = false ∧
    (equalCursorsStartedBuffer.writeData (List.replicate 12 3)).2.nextOutput = 0 ∧
    (equalCursorsStartedBuffer.writeData (List.replicate 12 3)).2.endOfLastWrite = 0 := by
  decide

/-- C2 (amended): with `started = true`, a write triggers the overflow reset
exactly when the write cursor is strictly before the read cursor and the
read cursor is at or before the (wrapped) advance of the write cursor by the
clamped sample count; immediately after a triggering write the read cursor
and `starved` flag are reset, but the write then proceeds from the origin,
leaving the write cursor (and hence `available`) at `samplesToCopy mod
capacity` — which is `0` exactly when the write was clamped to a multiple of
the capacity.  A write with equal cursors never triggers the reset. -/
theorem overflow_reset_trigger_and_post :
    ∀ (rb : AudioRingBuffer) (data : List Int),
      rb.wf → rb.hasStarted = true →
      ((rb.endOfLastWrite < rb.nextOutput ∧
          (rb.nextOutput : Int) ≤ rb.shiftedPositionAccomodatingWrap rb.endOfLastWrite
            ((min data.length rb.sampleCapacity : Nat) : Int)) →
        (rb.writeData data).2.nextOutput = 0 ∧
        (rb.writeData data).2.isStarved = true ∧
        (rb.writeData data).2.endOfLastWrite =
          min data.length rb.sampleCapacity % rb.sampleCapacity ∧
        (rb.writeData data).2.samplesAvailable =
          min data.length rb.sampleCapacity % rb.sampleCapacity) ∧
      (¬(rb.endOfLastWrite < rb.nextOutput ∧
          (rb.nextOutput : Int) ≤ rb.shiftedPositionAccomodatingWrap rb.endOfLastWrite
            ((min data.length rb.sampleCapacity : Nat) : Int)) →
        (rb.writeData data).2.nextOutput = rb.nextOutput ∧
        (rb.writeData data).2.isStarved = rb.isStarved) := by
  intro rb data hwf hstart
  obtain ⟨hlen, hnext, hend⟩ := hwf
  have hcap : 0 < rb.sampleCapacity := Nat.lt_of_le_of_lt (Nat.zero_le _) hnext
  have hstc : min data.length rb.sampleCapacity ≤ rb.sampleCapacity := Nat.min_le_right _ _
  constructor
  · intro htrig
    have hreset := rb.writeResetIfCrossed_pos (min data.length rb.sampleCapacity)
      ⟨hstart, htrig.1, htrig.2⟩
    have hnext' : (rb.writeData data).2.nextOutput = 0 := by
      rw [AudioRingBuffer.writeData_snd]
      simp [hreset]
    have hstarv' : (rb.writeData data).2.isStarved = true := by
      rw [AudioRingBuffer.writeData_snd]
      simp [hreset]
    have hcap' : (rb.writeData data).2.sampleCapacity = rb.sampleCapacity := by
      rw [AudioRingBuffer.writeData_snd]
      simp [hreset]
    have hend' : (rb.writeData data).2.endOfLastWrite =
        min data.length rb.sampleCapacity % rb.sampleCapacity := by
      rw [AudioRingBuffer.writeData_snd, AudioRingBuffer.writeAdvance_endOfLastWrite,
        AudioRingBuffer.shiftedPositionAccomodatingWrap_def]
      simp only [AudioRingBuffer.writeCopy_sampleCapacity,
        AudioRingBuffer.writeCopy_endOfLastWrite,
        AudioRingBuffer.writeResetIfCrossed_sampleCapacity, hreset]
      rcases Nat.lt_or_ge (min data.length rb.sampleCapacity) rb.sampleCapacity with hlt | hge
      · rw [Nat.mod_eq_of_lt hlt]
        split_ifs <;> omega
      · have heq : min data.length rb.sampleCapacity = rb.sampleCapacity :=
          le_antisymm hstc hge
        rw [heq, Nat.mod_self]
        split_ifs <;> omega
    refine ⟨hnext', hstarv', hend', ?_⟩
    rw [AudioRingBuffer.samplesAvailable_def, hnext', hend', hcap']
    have hmod : min data.length rb.sampleCapacity % rb.sampleCapacity <
        rb.sampleCapacity := Nat.mod_lt _ hcap
    split_ifs <;> omega
  · intro htrig
    have hreset := rb.writeResetIfCrossed_neg (min data.length rb.sampleCapacity)
      (fun hc => htrig ⟨hc.2.1, hc.2.2⟩)
    constructor
    · rw [AudioRingBuffer.writeData_snd]
      simp [hreset]
    · rw [AudioRingBuffer.writeData_snd]
      simp [hreset]

/-- Every reachable read-cursor offset is either the origin or a whole
number of frames into the ring, strictly inside it. -/
theorem reachableNextOutput_bounds {n : Nat} (h : ReachableNextOutput n) :
    n = 0 ∨ (BUFFER_LENGTH_SAMPLES_PER_CHANNEL ≤ n ∧ n < RING_BUFFER_SAMPLES) := by
  induction h with
  | origin => exact Or.inl rfl
  | advance _ ih =>
      unfold mixerAdvanceNextOutput
      simp only [BUFFER_LENGTH_SAMPLES_PER_CHANNEL, RING_BUFFER_SAMPLES,
        RING_BUFFER_FRAMES] at *
      split_ifs <;> omega

/-- C4: for every read-cursor position the mixer loop can reach and every
inter-aural delay `d ≤ 20`, each pre-roll sample the per-sample loop reads
(`delaySamplePointer[s]` for `s < d`) lies inside the ring, and the
look-back pointer is exactly the read cursor minus the delay wrapped into
the tail of the ring (subtraction modulo the ring size). -/
theorem delay_lookback_reads_stay_in_ring :
    ∀ (next d s : Nat), ReachableNextOutput next →
      d ≤ PHASE_DELAY_AT_90.toNat → s < d →
      0 ≤ delaySamplePointer next d + s ∧
      delaySamplePointer next d + s < (RING_BUFFER_SAMPLES : Int) ∧
      delaySamplePointer next d + s = ((next : Int) - d + s) % (RING_BUFFER_SAMPLES : Int) := by
  intro next d s hreach hd hs
  have hb := reachableNextOutput_bounds hreach
  unfold delaySamplePointer
  simp only [BUFFER_LENGTH_SAMPLES_PER_CHANNEL, RING_BUFFER_SAMPLES, RING_BUFFER_FRAMES,
    PHASE_DELAY_AT_90, Int.toNat_ofNat] at *
  split_ifs with h0 <;> omega

/-- Witness for C4 at the origin cursor with the maximal delay: the pre-roll
read at offset 5 falls in the tail of the ring. -/
theorem delay_lookback_reads_stay_in_ring_witness :
    0 ≤ delaySamplePointer 0 20 + 5 ∧
    delaySamplePointer 0 20 + 5 < (RING_BUFFER_SAMPLES : Int) :=
  ⟨(delay_lookback_reads_stay_in_ring 0 20 5 ReachableNextOutput.origin (by decide)
      (by decide)).1,
    (delay_lookback_reads_stay_in_ring 0 20 5 ReachableNextOutput.origin (by decide)
      (by decide)).2.1⟩

/-- C7: the gap tracker's `frameReceived` transition is exactly the step the
spec describes (first call records only the timestamp; later calls fold the
gap into the current interval; every `S = 50` gaps the interval max is
stored at `(newest + 1) mod W`, `W = 32`, the window max is recomputed over
all stored entries, the new-result flag is raised and the interval resets),
and draining returns the stored window max while clearing only the flag. -/
theorem gap_tracker_step_matches_spec :
    (∀ (h : InterframeTimeGapHistory) (now : Nat),
        h.newestIntervalMaxGapAt < TIME_GAP_NUM_INTERVALS_IN_WINDOW →
        h.frameReceived now = h.frameReceivedSpec now) ∧
    (∀ h : InterframeTimeGapHistory,
        h.getPastWindowMaxGap =
          (h.windowMaxGap, { h with newWindowMaxGapAvailable := false })) := by
  constructor
  · intro h now hwf
    unfold InterframeTimeGapHistory.frameReceived InterframeTimeGapHistory.frameReceivedSpec
    simp only [TIME_GAP_NUM_INTERVALS_IN_WINDOW] at *
    by_cases h0 : h.lastFrameReceivedTime = 0
    · simp [h0]
    · simp only [h0, ne_eq, not_false_eq_true, if_true, if_false, ite_false, ite_true]
      have hmax : (if now - h.lastFrameReceivedTime > h.currentIntervalMaxGap then
          now - h.lastFrameReceivedTime else h.currentIntervalMaxGap) =
          max h.currentIntervalMaxGap (now - h.lastFrameReceivedTime) := by
        rw [Nat.max_def]; split_ifs <;> omega
      have hnewest : (if h.newestIntervalMaxGapAt = 32 - 1 then 0
          else h.newestIntervalMaxGapAt + 1) = (h.newestIntervalMaxGapAt + 1) % 32 := by
        split_ifs <;> omega
      rw [hmax, hnewest]
  · intro h
    rfl

/-- Witness for C7: the step equivalence applied to the freshly-constructed
tracker at clock reading 7. -/
theorem gap_tracker_step_matches_spec_witness :
    InterframeTimeGapHistory.init.frameReceived 7 =
      InterframeTimeGapHistory.init.frameReceivedSpec 7 :=
  gap_tracker_step_matches_spec.1 InterframeTimeGapHistory.init 7 (by decide)

/-- Witness for C2 at a concrete triggering write: capacity 10, write cursor
at 2, read cursor at 5, started; a write of 6 samples advances the write
cursor to 8, at or past the read cursor, so the reset fires and the write
proceeds from the origin. -/
theorem overflow_reset_trigger_and_post_witness :
    (({ sampleCapacity := 10, buffer := List.replicate 10 0, nextOutput := 5,
        endOfLastWrite := 2, hasStarted := true, isStarved := false,
        randomAccessMode := false } : AudioRingBuffer).writeData
      (List.replicate 6 1)).2.nextOutput = 0 ∧
    (({ sampleCapacity := 10, buffer := List.replicate 10 0, nextOutput := 5,
        endOfLastWrite := 2, hasStarted := true, isStarved := false,
        randomAccessMode := false } : AudioRingBuffer).writeData
      (List.replicate 6 1)).2.isStarved = true := by
  have h := (overflow_reset_trigger_and_post
    { sampleCapacity := 10, buffer := List.replicate 10 0, nextOutput := 5,
      endOfLastWrite := 2, hasStarted := true, isStarved := false,
      randomAccessMode := false } (List.replicate 6 1) (by decide) rfl).1 (by decide)
  exact ⟨h.1, h.2.1⟩

/-- C6 counterexample: writing exactly the full capacity (10 samples, with
`numFrameSamples = 1`) to a fresh non-random-access buffer satisfies the
claim's hypotheses (`Σ n_i ≤ capacity`, the buffer never started so no
overflow reset fires), writes all 10 samples, and reads nothing — yet
`available` reports `0`, not `Σ n_i − Σ m_j = 10`: the write cursor wrapped
exactly onto the read cursor. -/
theorem interleaving_full_write_zero_available :
    (AudioRingBuffer.create 1 false (List.replicate 10 0)).sampleCapacity = 10 ∧
    (AudioRingBuffer.create 1 false (List.replicate 10 0)).hasStarted = false ∧
    (execTrace (AudioRingBuffer.create 1 false (List.replicate 10 0))
      [RingOp.write (List.replicate 10 5)]).1 = 10 ∧
    (execTrace (AudioRingBuffer.create 1 false (List.replicate 10 0))
      [RingOp.write (List.replicate 10 5)]).2.1 = 0 ∧
    (execTrace (AudioRingBuffer.create 1 false (List.replicate 10 0))
      [RingOp.write (List.replicate 10 5)]).2.2.samplesAvailable = 0 := by
  decide

/-- C6 (amended): for every interleaving of writes and reads on a fresh
non-random-access ring whose total requested write volume is strictly below
the capacity (so the write cursor can never wrap onto the read cursor; at
exactly the capacity `available` collapses to 0), after every prefix of the
trace the samples read never exceed the samples written and `available`
equals total written minus total read. -/
theorem interleaving_available_tracks_totals :
    ∀ (numFrameSamples : Nat) (uninit : List Int) (l1 l2 : List RingOp),
      uninit.length = numFrameSamples * RING_BUFFER_FRAMES →
      totalWriteRequested (l1 ++ l2) < numFrameSamples * RING_BUFFER_FRAMES →
      (execTrace (AudioRingBuffer.create numFrameSamples false uninit) l1).2.1 ≤
        (execTrace (AudioRingBuffer.create numFrameSamples false uninit) l1).1 ∧
      (execTrace (AudioRingBuffer.create numFrameSamples false uninit) l1).2.2.samplesAvailable =
        (execTrace (AudioRingBuffer.create numFrameSamples false uninit) l1).1 -
          (execTrace (AudioRingBuffer.create numFrameSamples false uninit) l1).2.1 := by
  intro nfs uninit l1 l2 hlen htot
  have htot1 : totalWriteRequested l1 ≤ totalWriteRequested (l1 ++ l2) := by
    rw [totalWriteRequested_append]; omega
  have hbuf0 : (AudioRingBuffer.create nfs false uninit).buffer = uninit := rfl
  have hcap0 : (AudioRingBuffer.create nfs false uninit).sampleCapacity =
      nfs * RING_BUFFER_FRAMES := rfl
  have hnext0 : (AudioRingBuffer.create nfs false uninit).nextOutput = 0 := rfl
  have hend0 : (AudioRingBuffer.create nfs false uninit).endOfLastWrite = 0 := rfl
  have hacc := execTrace_accounting l1 (AudioRingBuffer.create nfs false uninit) rfl rfl
    (by rw [hbuf0, hcap0]; exact hlen) (by rw [hnext0, hend0])
    (by rw [hend0, hcap0]; omega)
  obtain ⟨hc, hh, hr, hb, he, hn, hle, hw⟩ := hacc
  simp only [hnext0, hend0] at hle hn he
  constructor
  · omega
  · rw [AudioRingBuffer.samplesAvailable_eq_sub _ (by rw [he, hn]; omega)]
    rw [he, hn]
    omega

/-- Witness for C6: a write of 3 samples followed by a read of 2 on a fresh
capacity-10 ring leaves one sample available. -/
theorem interleaving_available_tracks_totals_witness :
    (execTrace (AudioRingBuffer.create 1 false (List.replicate 10 0))
      [RingOp.write (List.replicate 3 1), RingOp.read 2]).2.1 ≤
      (execTrace (AudioRingBuffer.create 1 false (List.replicate 10 0))
        [RingOp.write (List.replicate 3 1), RingOp.read 2]).1 ∧
    (execTrace (AudioRingBuffer.create 1 false (List.replicate 10 0))
      [RingOp.write (List.replicate 3 1), RingOp.read 2]).2.2.samplesAvailable =
      (execTrace (AudioRingBuffer.create 1 false (List.replicate 10 0))
        [RingOp.write (List.replicate 3 1), RingOp.read 2]).1 -
        (execTrace (AudioRingBuffer.create 1 false (List.replicate 10 0))
          [RingOp.write (List.replicate 3 1), RingOp.read 2]).2.1 :=
  interleaving_available_tracks_totals 1 (List.replicate 10 0)
    [RingOp.write (List.replicate 3 1), RingOp.read 2] [] (by decide) (by decide)

/-- A random-access ring buffer in mid-use, read cursor near the end of the
ring so that a read wraps. -/
def c10WitnessBuffer : AudioRingBuffer :=
  { sampleCapacity := 10
    buffer := List.replicate 10 3
    nextOutput := 7
    endOfLastWrite := 0
    hasStarted := false
    isStarved := false
    randomAccessMode := true }

/-- C10: in random-access mode a read of `0 < k ≤ capacity` returns exactly
`k` samples — the request is not reduced to the available count — and every
position the copy/zeroing touches is inside the ring; and on a freshly
constructed random-access buffer (zeroed at construction), a read before any
write already returns `k` zero samples. -/
theorem random_access_read_exact_and_in_ring :
    (∀ (rb : AudioRingBuffer) (k : Nat),
        rb.wf → rb.randomAccessMode = true → 0 < k → k ≤ rb.sampleCapacity →
        (rb.readData k).1.length = k ∧
        (∀ p ∈ rb.readAccessedPositions k, p < rb.sampleCapacity)) ∧
    (∀ (numFrameSamples : Nat) (uninit : List Int) (k : Nat),
        0 < k → k ≤ numFrameSamples * RING_BUFFER_FRAMES →
        ((AudioRingBuffer.create numFrameSamples true uninit).readData k).1 =
          List.replicate k 0) := by
  constructor
  · intro rb k hwf hra hk hkcap
    obtain ⟨hlen, hnext, hend⟩ := hwf
    have hamt : AudioRingBuffer.readAmount rb k = k := by
      unfold AudioRingBuffer.readAmount; simp [hra]
    constructor
    · rw [AudioRingBuffer.readData_fst, hamt]
      unfold AudioRingBuffer.readOut
      split_ifs with hw <;>
        simp only [List.length_append, List.length_take, List.length_drop] <;>
        omega
    · intro p hp
      simp only [AudioRingBuffer.readAccessedPositions, hamt] at hp
      split_ifs at hp with hw
      · rcases List.mem_append.mp hp with hp1 | hp2
        · have := List.mem_range'_1.mp hp1
          omega
        · have := List.mem_range.mp hp2
          omega
      · have := List.mem_range'_1.mp hp
        omega
  · intro nfs uninit k hk hkcap
    have hamt : AudioRingBuffer.readAmount (AudioRingBuffer.create nfs true uninit) k = k := by
      unfold AudioRingBuffer.readAmount AudioRingBuffer.create; simp
    rw [AudioRingBuffer.readData_fst, hamt]
    unfold AudioRingBuffer.readOut AudioRingBuffer.create
    simp only
    rw [if_neg (by simpa using hkcap)]
    simp [List.take_replicate, Nat.min_eq_left hkcap]

/-- Witness for C10: a wrapping random-access read of 5 samples starting at
offset 7 of a capacity-10 ring returns 5 samples; position 9 is touched and
is inside the ring; a fresh random-access buffer of capacity 20 yields 7
zeros before any write. -/
theorem random_access_read_exact_and_in_ring_witness :
    (c10WitnessBuffer.readData 5).1.length = 5 ∧
    9 < c10WitnessBuffer.sampleCapacity ∧
    ((AudioRingBuffer.create 2 true []).readData 7).1 = List.replicate 7 0 :=
  ⟨(random_access_read_exact_and_in_ring.1 c10WitnessBuffer 5 (by decide) rfl (by decide)
      (by decide)).1,
    (random_access_read_exact_and_in_ring.1 c10WitnessBuffer 5 (by decide) rfl (by decide)
      (by decide)).2 9 (by decide),
    random_access_read_exact_and_in_ring.2 2 [] 7 (by decide) (by decide)⟩

/-- C8: the distance-attenuation coefficient
`min(1, 0.5^(log_3(10 d) - 1))` is monotonically non-increasing in the
distance for `d > 0` and equals `1` at the reference distance `d = 0.1`. -/
theorem distance_coefficient_monotone_and_reference :
    (∀ d1 d2 : ℝ, 0 < d1 → d1 ≤ d2 →
      distanceCoefficient d2 ≤ distanceCoefficient d1) ∧
    distanceCoefficient (1 / 10) = 1 := by
  constructor
  · intro d1 d2 h1 h12
    unfold distanceCoefficient
    refine min_le_min le_rfl ?_
    have h3 : 0 < Real.log 3 := Real.log_pos (by norm_num)
    have hlog : Real.log (distanceRatioValue * d1) ≤ Real.log (distanceRatioValue * d2) := by
      apply Real.log_le_log
      · unfold distanceRatioValue; positivity
      · unfold distanceRatioValue; nlinarith
    have hexp : Real.log (distanceRatioValue * d1) / Real.log 3 - 1 ≤
        Real.log (distanceRatioValue * d2) / Real.log 3 - 1 := by
      have := (div_le_div_iff_of_pos_right h3).mpr hlog
      linarith
    exact Real.rpow_le_rpow_of_exponent_ge (by norm_num) (by norm_num) hexp
  · have h1 : distanceRatioValue * (1 / 10 : ℝ) = 1 := by
      unfold distanceRatioValue; norm_num
    unfold distanceCoefficient
    rw [h1, Real.log_one, zero_div, zero_sub, Real.rpow_neg_one]
    norm_num

/-- Witness for C8: the coefficient at distance 2 is at most the coefficient
at distance 1, and the reference value is exactly 1. -/
theorem distance_coefficient_monotone_and_reference_witness :
    distanceCoefficient 2 ≤ distanceCoefficient 1 ∧ distanceCoefficient (1 / 10) = 1 :=
  ⟨distance_coefficient_monotone_and_reference.1 1 2 (by norm_num) (by norm_num),
    distance_coefficient_monotone_and_reference.2⟩

/-- Rational bounds on `sin (π/5)` (the spatialization angle `α = 36°`),
from the closed form `cos (π/5) = (1 + √5)/4`:
`0.575 < sin (π/5) < 0.6`, so `20 · sin (π/5)` lies in `(11.5, 12)`. -/
theorem sin_pi_div_five_bounds :
    (23 / 40 : ℝ) < Real.sin (Real.pi / 5) ∧ Real.sin (Real.pi / 5) < 3 / 5 := by
  have hcos : Real.cos (Real.pi / 5) = (1 + Real.sqrt 5) / 4 := Real.cos_pi_div_five
  have hs5 : Real.sqrt 5 ^ 2 = 5 := Real.sq_sqrt (by norm_num)
  have hs5nn : (0 : ℝ) ≤ Real.sqrt 5 := Real.sqrt_nonneg 5
  have hs5lo : (2.2 : ℝ) < Real.sqrt 5 := by nlinarith
  have hs5hi : Real.sqrt 5 < 2.2361 := by nlinarith
  have hsin_nonneg : 0 ≤ Real.sin (Real.pi / 5) :=
    Real.sin_nonneg_of_nonneg_of_le_pi (by positivity) (by linarith [Real.pi_pos])
  have hsq : Real.sin (Real.pi / 5) ^ 2 = 1 - ((1 + Real.sqrt 5) / 4) ^ 2 := by
    rw [← hcos, Real.sin_sq]
  constructor
  · nlinarith [hsq, hsin_nonneg, hs5lo, hs5hi]
  · nlinarith [hsq, hsin_nonneg, hs5lo, hs5hi]

/-- At a relative bearing of 36 degrees the mixer's sine ratio is
`sin (π/5)`. -/
theorem sinRatioOf_36 : sinRatioOf 36 = Real.sin (Real.pi / 5) := by
  unfold sinRatioOf
  have h36 : (36 : ℝ) * (Real.pi / 180) = Real.pi / 5 := by ring
  rw [h36, abs_of_nonneg (Real.sin_nonneg_of_nonneg_of_le_pi (by positivity)
    (by linarith [Real.pi_pos]))]

/-- C5 counterexample: at `α = 36°` (where `20 · |sin α| ≈ 11.756`), the
code's `int` narrowing truncates the delay to 11 samples, while the claim's
`round(20 · k)` gives 12. -/
theorem delay_truncation_differs_from_rounding :
    numSamplesDelay 36 = 11 ∧ numSamplesDelaySpec 36 = 12 := by
  obtain ⟨hlo, hhi⟩ := sin_pi_div_five_bounds
  have h20 : ((PHASE_DELAY_AT_90 : Int) : ℝ) = 20 := by norm_num [PHASE_DELAY_AT_90]
  constructor
  · unfold numSamplesDelay cIntTrunc
    rw [sinRatioOf_36, h20, if_pos (by nlinarith)]
    rw [Int.floor_eq_iff]
    constructor <;> push_cast <;> nlinarith
  · unfold numSamplesDelaySpec
    rw [sinRatioOf_36, h20, round_eq, Int.floor_eq_iff]
    constructor <;> push_cast <;> nlinarith

/-- C5 (amended): the inter-aural delay the mixer computes is the float
product `20 · k` truncated by the C `int` conversion, i.e. `⌊20 · k⌋`
(truncation toward zero of a nonnegative value), not `round(20 · k)`; the
weak-channel amplitude is `1 − 0.5 · k` exactly as claimed, with
`k = |sin(α · π/180)|`. -/
theorem delay_is_floor_and_weak_ratio_formula :
    ∀ bearingRelative : ℝ,
      numSamplesDelay bearingRelative = ⌊(20 : ℝ) * sinRatioOf bearingRelative⌋ ∧
      weakChannelAmplitudeRatio bearingRelative =
        1 - (1 / 2) * |Real.sin (bearingRelative * (Real.pi / 180))| := by
  intro b
  have hnn : (0 : ℝ) ≤ sinRatioOf b := abs_nonneg _
  have h20 : ((PHASE_DELAY_AT_90 : Int) : ℝ) = 20 := by norm_num [PHASE_DELAY_AT_90]
  constructor
  · unfold numSamplesDelay cIntTrunc
    rw [h20, if_pos (by nlinarith)]
  · unfold weakChannelAmplitudeRatio PHASE_AMPLITUDE_RATIO_AT_90 sinRatioOf
    norm_num

/-- A fold whose step fixes every element of the list fixes the seed. -/
theorem foldl_fixed {γ : Type} (f : List Int → γ → List Int) :
    ∀ (l : List γ) (sc : List Int), (∀ x ∈ l, ∀ s, f s x = s) → l.foldl f sc = sc := by
  intro l
  induction l with
  | nil => intro sc _; rfl
  | cons x t ih =>
      intro sc h
      simp only [List.foldl_cons]
      rw [h x (List.mem_cons_self _ _) sc]
      exact ih sc (fun y hy s => h y (List.mem_cons_of_mem _ hy) s)

/-- C9: for an avatar listener with loopback off, if every other agent has
`shouldBeAddedToMix = false` this frame, the emitted stereo frame is all
zeros — the listener's own ring buffer is skipped by the self-test, whatever
it contains. -/
theorem no_eligible_sources_all_zero_frame :
    ∀ (agents : List AgentData) (listenerIdx : Nat) (listener : AgentData),
      listener.agentTypeAvatar = true →
      listener.shouldLoopback = false →
      (∀ p ∈ agents.enum, p.1 ≠ listenerIdx → p.2.shouldBeAddedToMix = false) →
      mixFrameForListener agents listenerIdx listener =
        List.replicate (2 * BUFFER_LENGTH_SAMPLES_PER_CHANNEL) 0 := by
  intro agents li listener havatar hloop hothers
  unfold mixFrameForListener
  apply foldl_fixed
  intro entry hmem s
  by_cases hpi : entry.1 = li
  · rw [if_neg]
    intro hor
    rcases hor with h1 | h2
    · exact h1 hpi
    · rw [hloop] at h2
      exact Bool.false_ne_true h2.2
  · rw [if_pos (Or.inl hpi), if_neg]
    simp [hothers entry hmem hpi]

/-- The listener for the C9 witness: an avatar with loopback off whose own
buffer is flagged for mixing. -/
noncomputable def c9Listener : AgentData :=
  { agentTypeAvatar := true
    posX := 0, posY := 0, posZ := 0
    bearing := 0
    attenuationRatio := 1
    shouldBeAddedToMix := true
    shouldLoopback := false
    ringSamples := List.replicate RING_BUFFER_SAMPLES 7
    nextOutput := 0 }

/-- Another agent for the C9 witness, ineligible this frame. -/
noncomputable def c9Other : AgentData :=
  { agentTypeAvatar := true
    posX := 1, posY := 0, posZ := 2
    bearing := 90
    attenuationRatio := 1
    shouldBeAddedToMix := false
    shouldLoopback := false
    ringSamples := List.replicate RING_BUFFER_SAMPLES 5
    nextOutput := 0 }

/-- Witness for C9: with one ineligible other agent and the listener's own
full buffer flagged, the emitted frame is still silence. -/
theorem no_eligible_sources_all_zero_frame_witness :
    mixFrameForListener [c9Listener, c9Other] 0 c9Listener =
      List.replicate (2 * BUFFER_LENGTH_SAMPLES_PER_CHANNEL) 0 :=
  no_eligible_sources_all_zero_frame [c9Listener, c9Other] 0 c9Listener rfl rfl (by
    intro p hp hne
    simp only [List.enum, List.enumFrom, List.mem_cons, List.not_mem_nil, or_false] at hp
    rcases hp with h0 | h1
    · exact absurd (congrArg Prod.fst h0) hne
    · rw [h1]
      rfl)

end Hifi
